import Mathlib

/-!
Shallow embedding of the xroms staggered-grid core (`xroms/utilities.py`):
the isosurface projector `xisoslice`, the regridding family
`to_rho`/`to_psi`/`to_u`/`to_v`/`to_s_rho`/`to_s_w`/`to_grid`, the vertical
derivative `ddz` and its horizontal siblings `ddxi`/`ddeta`, and the grid
identifier `id_grid`.  Machine floats are modelled as exact rationals, with
an explicit extended value type `FVal` capturing the IEEE outcomes (finite,
signed infinity, not-a-number) of the single division performed by
`xisoslice`.  The external xgcm grid object is modelled as a structure of
abstract pure functions together with the dimension-name bookkeeping that
the repository itself relies on (`xi_rho`/`xi_u`, `eta_rho`/`eta_v`,
`s_rho`/`s_w`).
-/

/-- Extended numeric value: a finite rational, a signed infinity, or
not-a-number.  This models the IEEE-754 results that the floating-point
code can produce at its division. -/
inductive FVal : Type
  | fin : ℚ → FVal
  | pinf : FVal
  | ninf : FVal
  | nan : FVal
deriving DecidableEq

/-- IEEE division of two finite values: division by zero yields NaN when the
numerator is also zero, otherwise a signed infinity. -/
def FVal.div (a b : ℚ) : FVal :=
  if b = 0 then
    if a = 0 then FVal.nan
    else if 0 < a then FVal.pinf
    else FVal.ninf
  else FVal.fin (a / b)

/-- Subtraction of an extended value from a finite value, per IEEE rules. -/
def FVal.subFin (a : ℚ) : FVal → FVal
  | FVal.fin b => FVal.fin (a - b)
  | FVal.pinf => FVal.ninf
  | FVal.ninf => FVal.pinf
  | FVal.nan => FVal.nan

/-- Halving of an extended value (`out/2` in the source), per IEEE rules. -/
def FVal.halve : FVal → FVal
  | FVal.fin a => FVal.fin (a / 2)
  | FVal.pinf => FVal.pinf
  | FVal.ninf => FVal.ninf
  | FVal.nan => FVal.nan

/-- A single column (along the chosen coordinate) of a field is a list of
samples; `isoProp` is `prop = iso_array - iso_value` from the source. -/
def isoProp (iso : List ℚ) (iso_value : ℚ) : List ℚ :=
  iso.map (fun x => x - iso_value)

/-- The sign-change indicator `zc = xr.where((propu*propl) <= 0.0, 1.0, 0.0)`
from the source: `propl` is the lower slice (all but the last sample,
`slice(None, -1)`), `propu` the upper slice (all but the first,
`slice(1, None)`), aligned element-for-element. -/
def isoZc (iso : List ℚ) (iso_value : ℚ) : List ℚ :=
  let prop := isoProp iso iso_value
  List.zipWith (fun pu pl => if pu * pl ≤ 0 then (1 : ℚ) else 0)
    (prop.drop 1) prop.dropLast

/-- The reduction `(xs*zc).sum(coord)` from the source. -/
def zcReduce (xs zc : List ℚ) : ℚ :=
  (List.zipWith (fun a b => a * b) xs zc).sum

/-- The linear-interpolation output `varl - propl*(varu-varl)/(propu-propl)`
of the source, built from the zc-reduced sums, before the double-count
correction. -/
def isoRaw (iso : List ℚ) (iso_value : ℚ) (proj : List ℚ) : FVal :=
  let prop := isoProp iso iso_value
  let zc := isoZc iso iso_value
  let propl := zcReduce prop.dropLast zc
  let propu := zcReduce (prop.drop 1) zc
  let varl := zcReduce proj.dropLast zc
  let varu := zcReduce (proj.drop 1) zc
  FVal.subFin varl (FVal.div (propl * (varu - varl)) (propu - propl))

/-- One column of `xisoslice`: the interpolated value, halved where the
sign-change indicator sums to 2 (`out = xr.where(check, out/2, out)`). -/
def xisosliceCol (iso : List ℚ) (iso_value : ℚ) (proj : List ℚ) : FVal :=
  if (isoZc iso iso_value).sum = 2 then (isoRaw iso iso_value proj).halve
  else isoRaw iso iso_value proj

/-- The vectorized `xisoslice`: every remaining-index combination `i : ι`
is processed independently, exactly as the elementwise xarray operations
and the single-axis reductions of the source do. -/
def xisoslice {ι : Type} (iso : ι → List ℚ) (iso_value : ℚ)
    (proj : ι → List ℚ) : ι → FVal :=
  fun i => xisosliceCol (iso i) iso_value (proj i)

/-- A reference column is monotonic when its samples are ordered one way or
the other along the axis. -/
def monotonicAlong (l : List ℚ) : Prop :=
  l.Chain' (fun a b => a ≤ b) ∨ l.Chain' (fun a b => b ≤ a)

instance (l : List ℚ) : Decidable (monotonicAlong l) := by
  unfold monotonicAlong; infer_instance

/-! ### List lemmas for the zc-indicator reductions -/

/-- A zc-weighted reduction against an all-zero weight list vanishes. -/
lemma zcReduce_of_all_zero (xs zc : List ℚ)
    (h : ∀ j, j < zc.length → zc.getD j 0 = 0) : zcReduce xs zc = 0 := by
  induction zc generalizing xs with
  | nil => cases xs <;> simp [zcReduce]
  | cons z zt ih =>
    cases xs with
    | nil => simp [zcReduce]
    | cons x xt =>
      have hz : z = 0 := h 0 (by simp)
      have ht : ∀ j, j < zt.length → zt.getD j 0 = 0 := by
        intro j hj
        exact h (j + 1) (by simpa using Nat.succ_lt_succ hj)
      have := ih xt ht
      simp only [zcReduce, List.zipWith_cons_cons, List.sum_cons] at *
      rw [hz, this]
      ring

/-- The sum of an all-zero list vanishes. -/
lemma listSum_of_all_zero (zc : List ℚ)
    (h : ∀ j, j < zc.length → zc.getD j 0 = 0) : zc.sum = 0 := by
  induction zc with
  | nil => simp
  | cons z zt ih =>
    have hz : z = 0 := h 0 (by simp)
    have ht : ∀ j, j < zt.length → zt.getD j 0 = 0 := by
      intro j hj
      exact h (j + 1) (by simpa using Nat.succ_lt_succ hj)
    simp [hz, ih ht]

/-- A zc-weighted reduction against an indicator weight list selects the
entry at the indicator's position. -/
lemma zcReduce_of_indicator (xs zc : List ℚ) (k : ℕ)
    (hk : k < zc.length) (hkx : k < xs.length)
    (h1 : zc.getD k 0 = 1)
    (h0 : ∀ j, j < zc.length → j ≠ k → zc.getD j 0 = 0) :
    zcReduce xs zc = xs.getD k 0 := by
  induction zc generalizing xs k with
  | nil => simp at hk
  | cons z zt ih =>
    cases xs with
    | nil => simp at hkx
    | cons x xt =>
      cases k with
      | zero =>
        have hz : z = 1 := by simpa using h1
        have ht : ∀ j, j < zt.length → zt.getD j 0 = 0 := by
          intro j hj
          have := h0 (j + 1) (by simpa using Nat.succ_lt_succ hj) (by omega)
          simpa using this
        have := zcReduce_of_all_zero xt zt ht
        simp only [zcReduce, List.zipWith_cons_cons, List.sum_cons] at *
        rw [hz, this]
        simp
      | succ k' =>
        have hz : z = 0 := by simpa using h0 0 (by simp) (by omega)
        have h1' : zt.getD k' 0 = 1 := by simpa using h1
        have h0' : ∀ j, j < zt.length → j ≠ k' → zt.getD j 0 = 0 := by
          intro j hj hne
          have := h0 (j + 1) (by simpa using Nat.succ_lt_succ hj) (by omega)
          simpa using this
        have := ih xt k' (by simpa using Nat.lt_of_succ_lt_succ hk)
          (by simpa using Nat.lt_of_succ_lt_succ hkx) h1' h0'
        simp only [zcReduce, List.zipWith_cons_cons, List.sum_cons] at *
        rw [hz, this]
        simp

/-- The sum of an indicator list is one. -/
lemma listSum_of_indicator (zc : List ℚ) (k : ℕ) (hk : k < zc.length)
    (h1 : zc.getD k 0 = 1)
    (h0 : ∀ j, j < zc.length → j ≠ k → zc.getD j 0 = 0) :
    zc.sum = 1 := by
  induction zc generalizing k with
  | nil => simp at hk
  | cons z zt ih =>
    cases k with
    | zero =>
      have hz : z = 1 := by simpa using h1
      have ht : ∀ j, j < zt.length → zt.getD j 0 = 0 := by
        intro j hj
        have := h0 (j + 1) (by simpa using Nat.succ_lt_succ hj) (by omega)
        simpa using this
      simp [hz, listSum_of_all_zero zt ht]
    | succ k' =>
      have hz : z = 0 := by simpa using h0 0 (by simp) (by omega)
      have h1' : zt.getD k' 0 = 1 := by simpa using h1
      have h0' : ∀ j, j < zt.length → j ≠ k' → zt.getD j 0 = 0 := by
        intro j hj hne
        have := h0 (j + 1) (by simpa using Nat.succ_lt_succ hj) (by omega)
        simpa using this
      simp [hz, ih k' (by simpa using Nat.lt_of_succ_lt_succ hk) h1' h0']

/-! ### Structure of the xisoslice intermediates -/

lemma isoProp_length (iso : List ℚ) (v : ℚ) :
    (isoProp iso v).length = iso.length := by
  simp [isoProp]

lemma isoZc_length (iso : List ℚ) (v : ℚ) :
    (isoZc iso v).length = iso.length - 1 := by
  simp [isoZc, isoProp]

lemma isoProp_getD (iso : List ℚ) (v : ℚ) (j : ℕ) (hj : j < iso.length) :
    (isoProp iso v).getD j 0 = iso.getD j 0 - v := by
  rw [List.getD_eq_getElem _ _ (by simpa [isoProp] using hj),
    List.getD_eq_getElem _ _ hj]
  simp [isoProp]

lemma getD_drop_one (l : List ℚ) (j : ℕ) (hj : j + 1 < l.length) :
    (l.drop 1).getD j 0 = l.getD (j + 1) 0 := by
  rw [List.getD_eq_getElem _ _ (by simp; omega),
    List.getD_eq_getElem _ _ hj]
  rw [List.getElem_drop]
  congr 1
  omega

lemma getD_dropLast (l : List ℚ) (j : ℕ) (hj : j + 1 < l.length) :
    l.dropLast.getD j 0 = l.getD j 0 := by
  rw [List.getD_eq_getElem _ _ (by simp; omega),
    List.getD_eq_getElem _ _ (by omega)]
  rw [List.getElem_dropLast]

lemma isoZc_getD (iso : List ℚ) (v : ℚ) (j : ℕ) (hj : j + 1 < iso.length) :
    (isoZc iso v).getD j 0 =
      if (iso.getD (j + 1) 0 - v) * (iso.getD j 0 - v) ≤ 0 then 1 else 0 := by
  have hlen : j < (isoZc iso v).length := by rw [isoZc_length]; omega
  have hb1 : j < ((isoProp iso v).drop 1).length := by simp [isoProp]; omega
  have hb2 : j < (isoProp iso v).dropLast.length := by simp [isoProp]; omega
  rw [List.getD_eq_getElem _ _ hlen]
  simp only [isoZc]
  rw [List.getElem_zipWith]
  rw [← List.getD_eq_getElem ((isoProp iso v).drop 1) 0 hb1,
    ← List.getD_eq_getElem (isoProp iso v).dropLast 0 hb2]
  rw [getD_drop_one _ _ (by simp [isoProp]; omega),
    getD_dropLast _ _ (by simp [isoProp]; omega),
    isoProp_getD _ _ _ (by omega), isoProp_getD _ _ _ (by omega)]

/-- When exactly one slot of the sign-change indicator is set, the four
zc-reductions select exactly the bracketing pair, so the output of
`xisosliceCol` is the linear-interpolation formula applied to the two
bracketing samples. -/
lemma xisosliceCol_unique_bracket (iso proj : List ℚ) (v : ℚ) (k : ℕ)
    (hlen : proj.length = iso.length)
    (hk : k + 1 < iso.length)
    (hbr : (iso.getD (k + 1) 0 - v) * (iso.getD k 0 - v) ≤ 0)
    (huniq : ∀ j, j + 1 < iso.length →
      (iso.getD (j + 1) 0 - v) * (iso.getD j 0 - v) ≤ 0 → j = k) :
    xisosliceCol iso v proj =
      FVal.subFin (proj.getD k 0)
        (FVal.div ((iso.getD k 0 - v) * (proj.getD (k + 1) 0 - proj.getD k 0))
          ((iso.getD (k + 1) 0 - v) - (iso.getD k 0 - v))) := by
  have h1 : (isoZc iso v).getD k 0 = 1 := by
    rw [isoZc_getD _ _ _ hk]
    exact if_pos hbr
  have h0 : ∀ j, j < (isoZc iso v).length → j ≠ k →
      (isoZc iso v).getD j 0 = 0 := by
    intro j hj hne
    have hj' : j + 1 < iso.length := by
      rw [isoZc_length] at hj; omega
    rw [isoZc_getD _ _ _ hj']
    exact if_neg (fun hc => hne (huniq j hj' hc))
  have hkz : k < (isoZc iso v).length := by rw [isoZc_length]; omega
  have hsum : (isoZc iso v).sum = 1 := listSum_of_indicator _ k hkz h1 h0
  have e1 : zcReduce (isoProp iso v).dropLast (isoZc iso v) = iso.getD k 0 - v := by
    rw [zcReduce_of_indicator _ _ k hkz (by simp [isoProp]; omega) h1 h0]
    rw [getD_dropLast _ _ (by rw [isoProp_length]; omega)]
    exact isoProp_getD _ _ _ (by omega)
  have e2 : zcReduce ((isoProp iso v).drop 1) (isoZc iso v) =
      iso.getD (k + 1) 0 - v := by
    rw [zcReduce_of_indicator _ _ k hkz (by simp [isoProp]; omega) h1 h0]
    rw [getD_drop_one _ _ (by rw [isoProp_length]; omega)]
    exact isoProp_getD _ _ _ (by omega)
  have e3 : zcReduce proj.dropLast (isoZc iso v) = proj.getD k 0 := by
    rw [zcReduce_of_indicator _ _ k hkz (by simp; omega) h1 h0]
    exact getD_dropLast _ _ (by omega)
  have e4 : zcReduce (proj.drop 1) (isoZc iso v) = proj.getD (k + 1) 0 := by
    rw [zcReduce_of_indicator _ _ k hkz (by simp; omega) h1 h0]
    exact getD_drop_one _ _ (by omega)
  unfold xisosliceCol
  rw [if_neg (by rw [hsum]; norm_num)]
  simp only [isoRaw]
  rw [e1, e2, e3, e4]

/-! ### Claim theorems for the isosurface projector -/

/-- C1: for a reference field monotonic along the axis that brackets the
target value exactly once per remaining-index combination (exactly one slot
with `prop_lower * prop_upper <= 0`), `xisoslice` returns
`varl - propl*(varu - varl)/(propu - propl)`, the linear interpolation of
the projected field between the two bracketing samples; in particular for
reference `[10,8,6,4,2]`, target `5` and projected field `[0,1,2,3,4]` it
returns exactly `5/2`. -/
theorem xisoslice_unique_bracket_interp :
    (∀ (ι : Type) (iso proj : ι → List ℚ) (v : ℚ) (i : ι) (k : ℕ),
      monotonicAlong (iso i) →
      (proj i).length = (iso i).length →
      k + 1 < (iso i).length →
      ((iso i).getD (k + 1) 0 - v) * ((iso i).getD k 0 - v) ≤ 0 →
      (∀ j, j + 1 < (iso i).length →
        ((iso i).getD (j + 1) 0 - v) * ((iso i).getD j 0 - v) ≤ 0 → j = k) →
      xisoslice iso v proj i =
        FVal.subFin ((proj i).getD k 0)
          (FVal.div (((iso i).getD k 0 - v) *
              ((proj i).getD (k + 1) 0 - (proj i).getD k 0))
            (((iso i).getD (k + 1) 0 - v) - ((iso i).getD k 0 - v)))) ∧
    xisoslice (fun _ : Unit => [10, 8, 6, 4, 2]) 5
      (fun _ : Unit => [0, 1, 2, 3, 4]) () = FVal.fin (5 / 2) := by
  constructor
  · intro ι iso proj v i k _hmono hlen hk hbr huniq
    exact xisosliceCol_unique_bracket (iso i) (proj i) v k hlen hk hbr huniq
  · norm_num [xisoslice, xisosliceCol, isoRaw, isoZc, isoProp, zcReduce,
      FVal.div, FVal.subFin, FVal.halve]

/-- Witness for C1: the general statement applied to the spec's end-to-end
scenario, reference `[10,8,6,4,2]`, target `5`, projected `[0,1,2,3,4]`,
bracket slot `k = 2`. -/
theorem xisoslice_unique_bracket_interp_witness :
    xisoslice (fun _ : Unit => [10, 8, 6, 4, 2]) 5
      (fun _ : Unit => [0, 1, 2, 3, 4]) () = FVal.fin (5 / 2) := by
  have h := xisoslice_unique_bracket_interp.1 Unit
    (fun _ : Unit => [10, 8, 6, 4, 2]) (fun _ : Unit => [0, 1, 2, 3, 4])
    5 () 2
    (by right; norm_num [monotonicAlong, List.chain'_cons])
    (by simp)
    (by norm_num)
    (by norm_num [List.getD])
    (by
      intro j hj hc
      simp only [List.length_cons, List.length_nil] at hj
      have hj4 : j < 4 := by omega
      interval_cases j <;> norm_num [List.getD] at hc ⊢)
  rw [h]
  norm_num [List.getD, FVal.div, FVal.subFin]

/-- C2: at every remaining-index combination where the sign-change indicator
sums to exactly 2 along the axis, the interpolated result is divided by 2;
in particular, for reference `[0,1,2,3,4]`, projected field equal to the
reference and target exactly `2`, `xisoslice` returns exactly `2` after the
halving correction. -/
theorem xisoslice_double_count_halved :
    (∀ (ι : Type) (iso proj : ι → List ℚ) (v : ℚ) (i : ι),
      (isoZc (iso i) v).sum = 2 →
      xisoslice iso v proj i = (isoRaw (iso i) v (proj i)).halve) ∧
    xisoslice (fun _ : Unit => [0, 1, 2, 3, 4]) 2
      (fun _ : Unit => [0, 1, 2, 3, 4]) () = FVal.fin 2 := by
  constructor
  · intro ι iso proj v i h
    simp [xisoslice, xisosliceCol, h]
  · norm_num [xisoslice, xisosliceCol, isoRaw, isoZc, isoProp, zcReduce,
      FVal.div, FVal.subFin, FVal.halve]

/-- Witness for C2: the halving branch applied to the degenerate scenario
reference `[0,1,2,3,4]`, target `2`, projected field equal to the
reference. -/
theorem xisoslice_double_count_halved_witness :
    xisoslice (fun _ : Unit => [0, 1, 2, 3, 4]) 2
      (fun _ : Unit => [0, 1, 2, 3, 4]) () =
      (isoRaw [0, 1, 2, 3, 4] 2 [0, 1, 2, 3, 4]).halve := by
  exact xisoslice_double_count_halved.1 Unit
    (fun _ : Unit => [0, 1, 2, 3, 4]) (fun _ : Unit => [0, 1, 2, 3, 4]) 2 ()
    (by norm_num [isoZc, isoProp])

/-- C3: at a remaining-index combination whose selected bracket has equal
endpoint values of the reference field (so `propu = propl` there, a flat
region coincident with the target value), `xisoslice` yields not-a-number at
that combination — the model is a total function, so no exception is raised
— and every other remaining-index combination is unaffected: its result
depends only on its own columns. -/
theorem xisoslice_flat_bracket_nan :
    ∀ (ι : Type) (iso proj : ι → List ℚ) (v : ℚ) (i₀ : ι) (k : ℕ),
      (proj i₀).length = (iso i₀).length →
      k + 1 < (iso i₀).length →
      ((iso i₀).getD (k + 1) 0 - v) * ((iso i₀).getD k 0 - v) ≤ 0 →
      (∀ j, j + 1 < (iso i₀).length →
        ((iso i₀).getD (j + 1) 0 - v) * ((iso i₀).getD j 0 - v) ≤ 0 → j = k) →
      (iso i₀).getD (k + 1) 0 = (iso i₀).getD k 0 →
      xisoslice iso v proj i₀ = FVal.nan ∧
      ∀ (iso2 proj2 : ι → List ℚ),
        (∀ i, i ≠ i₀ → iso2 i = iso i ∧ proj2 i = proj i) →
        ∀ i, i ≠ i₀ → xisoslice iso2 v proj2 i = xisoslice iso v proj i := by
  intro ι iso proj v i₀ k hlen hk hbr huniq heq
  constructor
  · have h := xisosliceCol_unique_bracket (iso i₀) (proj i₀) v k hlen hk hbr huniq
    have hzero : (iso i₀).getD k 0 - v = 0 := by
      rw [heq] at hbr
      have := mul_self_nonneg ((iso i₀).getD k 0 - v)
      nlinarith
    show xisosliceCol (iso i₀) v (proj i₀) = FVal.nan
    rw [h, heq, hzero]
    norm_num [FVal.div, FVal.subFin]
  · intro iso2 proj2 hagree i hi
    show xisosliceCol (iso2 i) v (proj2 i) = xisosliceCol (iso i) v (proj i)
    rw [(hagree i hi).1, (hagree i hi).2]

/-- Witness for C3: a two-point column flat at the target value (the only
configuration in which the selected bracket is unique and has equal
endpoints) produces not-a-number, alongside a second untouched column. -/
theorem xisoslice_flat_bracket_nan_witness :
    xisoslice (fun b : Bool => cond b [2, 2] [0, 1, 2]) 2
      (fun b : Bool => cond b [7, 9] [5, 6, 7]) true = FVal.nan := by
  refine (xisoslice_flat_bracket_nan Bool
    (fun b : Bool => cond b [2, 2] [0, 1, 2])
    (fun b : Bool => cond b [7, 9] [5, 6, 7]) 2 true 0
    (by simp) (by simp) (by norm_num [List.getD])
    ?_ (by norm_num [List.getD])).1
  intro j hj _
  simp only [cond, List.length_cons, List.length_nil] at hj
  omega

/-- C10: at a remaining-index combination where the reference field never
brackets the target value along the axis (no slot satisfies
`prop_lower * prop_upper <= 0`), the four zc-reduced sums `propl`, `propu`,
`varl`, `varu` are all zero, so the interpolation formula evaluates `0/0`
and the result is not-a-number rather than an error or an extrapolation. -/
theorem xisoslice_no_bracket_nan :
    ∀ (ι : Type) (iso proj : ι → List ℚ) (v : ℚ) (i : ι),
      (∀ j, j + 1 < (iso i).length →
        ¬(((iso i).getD (j + 1) 0 - v) * ((iso i).getD j 0 - v) ≤ 0)) →
      xisoslice iso v proj i = FVal.nan ∧
      zcReduce (isoProp (iso i) v).dropLast (isoZc (iso i) v) = 0 ∧
      zcReduce ((isoProp (iso i) v).drop 1) (isoZc (iso i) v) = 0 ∧
      zcReduce ((proj i)).dropLast (isoZc (iso i) v) = 0 ∧
      zcReduce ((proj i).drop 1) (isoZc (iso i) v) = 0 := by
  intro ι iso proj v i hnb
  have h0 : ∀ j, j < (isoZc (iso i) v).length → (isoZc (iso i) v).getD j 0 = 0 := by
    intro j hj
    have hj' : j + 1 < (iso i).length := by
      rw [isoZc_length] at hj; omega
    rw [isoZc_getD _ _ _ hj']
    exact if_neg (hnb j hj')
  have hsum : (isoZc (iso i) v).sum = 0 := listSum_of_all_zero _ h0
  refine ⟨?_, zcReduce_of_all_zero _ _ h0, zcReduce_of_all_zero _ _ h0,
    zcReduce_of_all_zero _ _ h0, zcReduce_of_all_zero _ _ h0⟩
  show xisosliceCol (iso i) v (proj i) = FVal.nan
  unfold xisosliceCol
  rw [if_neg (by rw [hsum]; norm_num)]
  simp only [isoRaw]
  rw [zcReduce_of_all_zero _ _ h0, zcReduce_of_all_zero _ _ h0,
    zcReduce_of_all_zero _ _ h0, zcReduce_of_all_zero _ _ h0]
  norm_num [FVal.div, FVal.subFin]

/-- Witness for C10: reference `[0,1,2]` never brackets the target `5`, so
the result is not-a-number. -/
theorem xisoslice_no_bracket_nan_witness :
    xisoslice (fun _ : Unit => [0, 1, 2]) 5
      (fun _ : Unit => [7, 8, 9]) () = FVal.nan := by
  refine (xisoslice_no_bracket_nan Unit (fun _ : Unit => [0, 1, 2]) 
    (fun _ : Unit => [7, 8, 9]) 5 () ?_).1
  intro j hj
  simp only [List.length_cons, List.length_nil] at hj
  have hj2 : j < 2 := by omega
  interval_cases j <;> norm_num [List.getD]

/-! ### The staggered-grid data model and the regridding family -/

/-- Logical axis of the xgcm grid object ('X', 'Y', 'Z' in the source). -/
inductive Axis : Type
  | X : Axis
  | Y : Axis
  | Z : Axis
deriving DecidableEq

/-- Grid position along one axis, as named by the xgcm calls in the source
(`to='center'`, `to='inner'`, `to='outer'`). -/
inductive GPos : Type
  | center : GPos
  | inner : GPos
  | outer : GPos
deriving DecidableEq

/-- A record of one `grid.interp` call: which axis, which target position,
which boundary policy. -/
structure Call where
  axis : Axis
  pos : GPos
  boundary : String
deriving DecidableEq

/-- An xarray DataArray as the core uses it: named dimensions, the optional
DataArray name, the attribute dictionary, and an abstract data payload. -/
structure DataArray (α : Type) where
  dims : List String
  name : Option String
  attrs : List (String × String)
  data : α
deriving DecidableEq

/-- The dimension names belonging to each logical axis in the ROMS datasets
this repository targets (the names its own guards test for). -/
def axisDims : Axis → List String
  | Axis.X => ["xi_rho", "xi_u"]
  | Axis.Y => ["eta_rho", "eta_v"]
  | Axis.Z => ["s_rho", "s_w"]

/-- The dimension name carried by each grid position of each axis, per the
repository's own guards (`xi_rho`/`xi_u`, `eta_rho`/`eta_v`,
`s_rho`/`s_w`). -/
def targetDim : Axis → GPos → String
  | Axis.X, GPos.center => "xi_rho"
  | Axis.X, _ => "xi_u"
  | Axis.Y, GPos.center => "eta_rho"
  | Axis.Y, _ => "eta_v"
  | Axis.Z, GPos.center => "s_rho"
  | Axis.Z, _ => "s_w"

/-- The external xgcm grid object, an out-of-scope collaborator: its numeric
effect on the data payload, the name and the attribute dictionary is left
abstract (any pure function), and `grid.derivative` is a fully abstract
field transform.  Only the dimension bookkeeping of `grid.interp` — that
interpolating along an axis moves that axis's dimension to the target
position's name — is fixed, since every guard of the repository relies on
it. -/
structure Grid (α : Type) where
  interpData : α → Axis → GPos → String → α
  interpName : Option String → Option String
  interpAttrs : List (String × String) → List (String × String)
  derivative : DataArray α → Axis → String → FVal → DataArray α

/-- `grid.interp(var, axis, to, boundary)`: the axis's dimension is renamed
to the target position's dimension; name, attrs and data are transformed by
the abstract grid functions. -/
def interp {α : Type} (g : Grid α) (var : DataArray α) (axis : Axis) (pos : GPos)
    (boundary : String) : DataArray α :=
  { dims := var.dims.map (fun d => if d ∈ axisDims axis then targetDim axis pos else d)
    name := g.interpName var.name
    attrs := g.interpAttrs var.attrs
    data := g.interpData var.data axis pos boundary }

/-- `to_rho`: interpolate to the rho horizontal grid, skipping each axis
already there; the first component records the `grid.interp` calls made. -/
def to_rho {α : Type} (var : DataArray α) (g : Grid α) (boundary : String) :
    List Call × DataArray α :=
  let s1 : List Call × DataArray α :=
    if "xi_rho" ∉ var.dims then
      ([⟨Axis.X, GPos.center, boundary⟩], interp g var Axis.X GPos.center boundary)
    else ([], var)
  let s2 : List Call × DataArray α :=
    if "eta_rho" ∉ s1.2.dims then
      ([⟨Axis.Y, GPos.center, boundary⟩], interp g s1.2 Axis.Y GPos.center boundary)
    else ([], s1.2)
  (s1.1 ++ s2.1, s2.2)

/-- `to_psi`: interpolate to the psi horizontal grid. -/
def to_psi {α : Type} (var : DataArray α) (g : Grid α) (boundary : String) :
    List Call × DataArray α :=
  let s1 : List Call × DataArray α :=
    if "xi_u" ∉ var.dims then
      ([⟨Axis.X, GPos.inner, boundary⟩], interp g var Axis.X GPos.inner boundary)
    else ([], var)
  let s2 : List Call × DataArray α :=
    if "eta_v" ∉ s1.2.dims then
      ([⟨Axis.Y, GPos.inner, boundary⟩], interp g s1.2 Axis.Y GPos.inner boundary)
    else ([], s1.2)
  (s1.1 ++ s2.1, s2.2)

/-- `to_u`: interpolate to the u horizontal grid. -/
def to_u {α : Type} (var : DataArray α) (g : Grid α) (boundary : String) :
    List Call × DataArray α :=
  let s1 : List Call × DataArray α :=
    if "xi_u" ∉ var.dims then
      ([⟨Axis.X, GPos.inner, boundary⟩], interp g var Axis.X GPos.inner boundary)
    else ([], var)
  let s2 : List Call × DataArray α :=
    if "eta_rho" ∉ s1.2.dims then
      ([⟨Axis.Y, GPos.center, boundary⟩], interp g s1.2 Axis.Y GPos.center boundary)
    else ([], s1.2)
  (s1.1 ++ s2.1, s2.2)

/-- `to_v`: interpolate to the v horizontal grid. -/
def to_v {α : Type} (var : DataArray α) (g : Grid α) (boundary : String) :
    List Call × DataArray α :=
  let s1 : List Call × DataArray α :=
    if "xi_rho" ∉ var.dims then
      ([⟨Axis.X, GPos.center, boundary⟩], interp g var Axis.X GPos.center boundary)
    else ([], var)
  let s2 : List Call × DataArray α :=
    if "eta_v" ∉ s1.2.dims then
      ([⟨Axis.Y, GPos.inner, boundary⟩], interp g s1.2 Axis.Y GPos.inner boundary)
    else ([], s1.2)
  (s1.1 ++ s2.1, s2.2)

/-- `to_s_rho`: convert from the s_w to the s_rho vertical grid, only if not
already there. -/
def to_s_rho {α : Type} (var : DataArray α) (g : Grid α) (boundary : String) :
    List Call × DataArray α :=
  if "s_rho" ∉ var.dims then
    ([⟨Axis.Z, GPos.center, boundary⟩], interp g var Axis.Z GPos.center boundary)
  else ([], var)

/-- `to_s_w`: convert from the s_rho to the s_w vertical grid, only if not
already there. -/
def to_s_w {α : Type} (var : DataArray α) (g : Grid α) (boundary : String) :
    List Call × DataArray α :=
  if "s_w" ∉ var.dims then
    ([⟨Axis.Z, GPos.outer, boundary⟩], interp g var Axis.Z GPos.outer boundary)
  else ([], var)

/-- The message of the failed `hcoord` assertion in `to_grid`. -/
def hcoordMsg (h : String) : String :=
  "hcoord should be \"rho\" or \"psi\" or \"u\" or \"v\" but is \"" ++ h ++ "\""

/-- The message of the failed `scoord` assertion in `to_grid`. -/
def scoordMsg (s : String) : String :=
  "scoord should be \"s_rho\", \"rho\", \"s_w\", or \"w\" but is \"" ++ s ++ "\""

/-- The `hcoord` block of `to_grid`: the assertion (modelled as an error
result) followed by the dispatch to the matching horizontal step, with the
default `extend` boundary. -/
def togridH {α : Type} (var : DataArray α) (g : Grid α) (hcoord : Option String) :
    List Call × Except String (DataArray α) :=
  match hcoord with
  | none => ([], Except.ok var)
  | some h =>
    if h ∈ ["rho", "psi", "u", "v"] then
      if h = "rho" then ((to_rho var g "extend").1, Except.ok (to_rho var g "extend").2)
      else if h = "psi" then ((to_psi var g "extend").1, Except.ok (to_psi var g "extend").2)
      else if h = "u" then ((to_u var g "extend").1, Except.ok (to_u var g "extend").2)
      else if h = "v" then ((to_v var g "extend").1, Except.ok (to_v var g "extend").2)
      else ([], Except.ok var)
    else ([], Except.error (hcoordMsg h))

/-- The `scoord` block of `to_grid`: the assertion followed by the dispatch
to the matching vertical step. -/
def togridS {α : Type} (var : DataArray α) (g : Grid α) (scoord : Option String) :
    List Call × Except String (DataArray α) :=
  match scoord with
  | none => ([], Except.ok var)
  | some s =>
    if s ∈ ["s_rho", "rho", "s_w", "w"] then
      if s = "s_rho" ∨ s = "rho" then
        ((to_s_rho var g "extend").1, Except.ok (to_s_rho var g "extend").2)
      else if s = "s_w" ∨ s = "w" then
        ((to_s_w var g "extend").1, Except.ok (to_s_w var g "extend").2)
      else ([], Except.ok var)
    else ([], Except.error (scoordMsg s))

/-- `to_grid(var, grid, hcoord, scoord)`: the name is saved on entry, the
`hcoord` block runs, then the `scoord` block, and the saved name is
restored on the result.  The first component records the `grid.interp`
calls performed before returning or failing. -/
def to_grid {α : Type} (var : DataArray α) (g : Grid α)
    (hcoord scoord : Option String) : List Call × Except String (DataArray α) :=
  let name := var.name
  match togridH var g hcoord with
  | (t1, Except.error e) => (t1, Except.error e)
  | (t1, Except.ok v1) =>
    match togridS v1 g scoord with
    | (t2, Except.error e) => (t1 ++ t2, Except.error e)
    | (t2, Except.ok v2) => (t1 ++ t2, Except.ok { v2 with name := name })

/-! ### Derivative wrappers and attribute handling -/

/-- Python dict-style defaulting: `if not key in attrs: attrs[key] = val`
(insertion appends; an existing key is left alone). -/
def attrsSetDefault (a : List (String × String)) (key val : String) :
    List (String × String) :=
  if (a.lookup key).isSome then a else a ++ [(key, val)]

/-- The three defaulting statements executed by `ddz`/`ddxi`/`ddeta` when no
attrs override is supplied; they mutate the input's attribute dictionary. -/
def fillDefaultAttrs (a : List (String × String)) : List (String × String) :=
  attrsSetDefault (attrsSetDefault (attrsSetDefault a "name" "var")
    "long_name" "var") "units" "units"

/-- The error message of Python's string concatenation `'d' + None`. -/
def nameTypeErrorMsg : String :=
  "TypeError: can only concatenate str (not NoneType) to str"

/-- `ddz(var, grid, attrs, hcoord, scoord, sboundary, sfill_value)`.
The first component of the result is the state of the *input* DataArray
after the call (the defaulting block mutates its attribute dictionary in
place); the second is the returned DataArray, or the raised error.  When
the input has no DataArray name and no attrs override is supplied, the
default-name concatenation `'d' + var.name + 'dz'` raises a TypeError.
Attribute access `var.long_name` / `var.units` resolves through the (just
defaulted) attribute dictionary. -/
def ddz {α : Type} (var : DataArray α) (g : Grid α)
    (attrs : Option (List (String × String))) (hcoord scoord : Option String)
    (sboundary : String) (sfill_value : FVal) :
    DataArray α × Except String (DataArray α) :=
  match attrs with
  | some a =>
    let v1 := g.derivative var Axis.Z sboundary sfill_value
    (var, (to_grid v1 g hcoord scoord).2.map (fun v2 => { v2 with attrs := a }))
  | none =>
    let varm : DataArray α := { var with attrs := fillDefaultAttrs var.attrs }
    match varm.name with
    | none => (varm, Except.error nameTypeErrorMsg)
    | some n =>
      let a := [("name", "d" ++ n ++ "dz"),
        ("long_name", "vertical derivative of " ++
          ((varm.attrs.lookup "long_name").getD "")),
        ("units", "1/m * " ++ ((varm.attrs.lookup "units").getD ""))]
      let v1 := g.derivative varm Axis.Z sboundary sfill_value
      (varm, (to_grid v1 g hcoord scoord).2.map (fun v2 => { v2 with attrs := a }))

/-- Modelled from the spec: `xroms.hgrad`, called by `ddxi`/`ddeta`, lives
in a repository module that is not under `src/` (only its import in
`__init__.py` and its callers are).  Per the spec it is a pure
metric-corrected horizontal derivative returning a new field, so it is
taken as an arbitrary pure function of
(var, grid, which, z, hboundary, hfill_value, sboundary, sfill_value). -/
def HGrad (α : Type) : Type :=
  DataArray α → Grid α → String → Option (DataArray α) → String → FVal →
    String → FVal → DataArray α

/-- `ddxi(var, grid, attrs, hcoord, scoord, hboundary, hfill_value,
sboundary, sfill_value, z)`, with the result shaped as in `ddz`: (state of
the input after the call, returned DataArray or raised error). -/
def ddxi {α : Type} (hgrad : HGrad α) (var : DataArray α) (g : Grid α)
    (attrs : Option (List (String × String))) (hcoord scoord : Option String)
    (hboundary : String) (hfill_value : FVal)
    (sboundary : String) (sfill_value : FVal) (z : Option (DataArray α)) :
    DataArray α × Except String (DataArray α) :=
  match attrs with
  | some a =>
    let v1 := hgrad var g "xi" z hboundary hfill_value sboundary sfill_value
    (var, (to_grid v1 g hcoord scoord).2.map (fun v2 => { v2 with attrs := a }))
  | none =>
    let varm : DataArray α := { var with attrs := fillDefaultAttrs var.attrs }
    match varm.name with
    | none => (varm, Except.error nameTypeErrorMsg)
    | some n =>
      let a := [("name", "d" ++ n ++ "dxi"),
        ("long_name", "horizontal xi derivative of " ++
          ((varm.attrs.lookup "long_name").getD "")),
        ("units", "1/m * " ++ ((varm.attrs.lookup "units").getD ""))]
      let v1 := hgrad varm g "xi" z hboundary hfill_value sboundary sfill_value
      (varm, (to_grid v1 g hcoord scoord).2.map (fun v2 => { v2 with attrs := a }))

/-- `ddeta`, identical to `ddxi` up to the axis tag and attribute texts. -/
def ddeta {α : Type} (hgrad : HGrad α) (var : DataArray α) (g : Grid α)
    (attrs : Option (List (String × String))) (hcoord scoord : Option String)
    (hboundary : String) (hfill_value : FVal)
    (sboundary : String) (sfill_value : FVal) (z : Option (DataArray α)) :
    DataArray α × Except String (DataArray α) :=
  match attrs with
  | some a =>
    let v1 := hgrad var g "eta" z hboundary hfill_value sboundary sfill_value
    (var, (to_grid v1 g hcoord scoord).2.map (fun v2 => { v2 with attrs := a }))
  | none =>
    let varm : DataArray α := { var with attrs := fillDefaultAttrs var.attrs }
    match varm.name with
    | none => (varm, Except.error nameTypeErrorMsg)
    | some n =>
      let a := [("name", "d" ++ n ++ "deta"),
        ("long_name", "horizontal eta derivative of " ++
          ((varm.attrs.lookup "long_name").getD "")),
        ("units", "1/m * " ++ ((varm.attrs.lookup "units").getD ""))]
      let v1 := hgrad varm g "eta" z hboundary hfill_value sboundary sfill_value
      (varm, (to_grid v1 g hcoord scoord).2.map (fun v2 => { v2 with attrs := a }))

/-- `id_grid(da)`: identify the grid a DataArray uses by counting dimension
names, in the source's branch order; the fall-through returns Python's
implicit None. -/
def id_grid {α : Type} (da : DataArray α) : Option String :=
  if da.dims.count "eta_rho" + da.dims.count "xi_rho" = 2 then some "rho"
  else if da.dims.count "eta_rho" + da.dims.count "xi_u" = 2 ∨
      da.dims.count "eta_u" + da.dims.count "xi_u" = 2 then some "u"
  else if da.dims.count "eta_v" + da.dims.count "xi_rho" = 2 ∨
      da.dims.count "eta_v" + da.dims.count "xi_v" = 2 then some "v"
  else if da.dims.count "eta_v" + da.dims.count "xi_u" = 2 ∨
      da.dims.count "eta_psi" + da.dims.count "xi_psi" = 2 then some "psi"
  else if da.dims.count "eta_vert" + da.dims.count "xi_vert" = 2 then some "vert"
  else none

/-- A concrete grid instance over a unit payload, used to evaluate the
model at concrete inputs. -/
def unitGrid : Grid Unit :=
  { interpData := fun _ _ _ _ => ()
    interpName := fun n => n
    interpAttrs := fun a => a
    derivative := fun f _ _ _ => f }

/-- A concrete pure hgrad instance over a unit payload. -/
def unitHgrad : HGrad Unit :=
  fun f _ _ _ _ _ _ _ => f

/-! ### Dimension bookkeeping lemmas for the regridding family -/

lemma targetDim_mem_axisDims (axis : Axis) (pos : GPos) :
    targetDim axis pos ∈ axisDims axis := by
  cases axis <;> cases pos <;> decide

lemma axisDims_disjoint :
    ∀ (a1 a2 : Axis), a1 ≠ a2 → ∀ d ∈ axisDims a1, d ∉ axisDims a2 := by
  intro a1 a2 hne
  cases a1 <;> cases a2 <;> first | exact absurd rfl hne | decide

lemma interp_dims_mem_target {α : Type} (g : Grid α) (var : DataArray α)
    (axis : Axis) (pos : GPos) (b : String)
    (hex : ∃ d ∈ axisDims axis, d ∈ var.dims) :
    targetDim axis pos ∈ (interp g var axis pos b).dims := by
  obtain ⟨d, hd1, hd2⟩ := hex
  simp only [interp, List.mem_map]
  exact ⟨d, hd2, by rw [if_pos hd1]⟩

lemma interp_dims_mem_iff {α : Type} (g : Grid α) (var : DataArray α)
    (axis : Axis) (pos : GPos) (b : String) (d2 : String)
    (hd2 : d2 ∉ axisDims axis) :
    d2 ∈ (interp g var axis pos b).dims ↔ d2 ∈ var.dims := by
  simp only [interp, List.mem_map]
  constructor
  · rintro ⟨d, hd, heq⟩
    by_cases hc : d ∈ axisDims axis
    · rw [if_pos hc] at heq
      exact absurd (heq ▸ targetDim_mem_axisDims axis pos) hd2
    · rw [if_neg hc] at heq
      exact heq ▸ hd
  · intro hd
    exact ⟨d2, hd, if_neg hd2⟩

/-- The common shape of the two-axis horizontal steps
`to_rho`/`to_psi`/`to_u`/`to_v`, abstracted over the two guard dimensions
and target positions. -/
def hpairStep {α : Type} (g : Grid α) (var : DataArray α) (b : String)
    (tgt1 : String) (pos1 : GPos) (tgt2 : String) (pos2 : GPos) :
    List Call × DataArray α :=
  let s1 : List Call × DataArray α :=
    if tgt1 ∉ var.dims then
      ([⟨Axis.X, pos1, b⟩], interp g var Axis.X pos1 b)
    else ([], var)
  let s2 : List Call × DataArray α :=
    if tgt2 ∉ s1.2.dims then
      ([⟨Axis.Y, pos2, b⟩], interp g s1.2 Axis.Y pos2 b)
    else ([], s1.2)
  (s1.1 ++ s2.1, s2.2)

/-- The common shape of the one-axis vertical steps `to_s_rho`/`to_s_w`. -/
def vStep {α : Type} (g : Grid α) (var : DataArray α) (b : String)
    (tgt : String) (pos : GPos) : List Call × DataArray α :=
  if tgt ∉ var.dims then
    ([⟨Axis.Z, pos, b⟩], interp g var Axis.Z pos b)
  else ([], var)

lemma to_rho_eq_hpairStep {α : Type} (var : DataArray α) (g : Grid α) (b : String) :
    to_rho var g b = hpairStep g var b "xi_rho" GPos.center "eta_rho" GPos.center := rfl

lemma to_psi_eq_hpairStep {α : Type} (var : DataArray α) (g : Grid α) (b : String) :
    to_psi var g b = hpairStep g var b "xi_u" GPos.inner "eta_v" GPos.inner := rfl

lemma to_u_eq_hpairStep {α : Type} (var : DataArray α) (g : Grid α) (b : String) :
    to_u var g b = hpairStep g var b "xi_u" GPos.inner "eta_rho" GPos.center := rfl

lemma to_v_eq_hpairStep {α : Type} (var : DataArray α) (g : Grid α) (b : String) :
    to_v var g b = hpairStep g var b "xi_rho" GPos.center "eta_v" GPos.inner := rfl

lemma to_s_rho_eq_vStep {α : Type} (var : DataArray α) (g : Grid α) (b : String) :
    to_s_rho var g b = vStep g var b "s_rho" GPos.center := rfl

lemma to_s_w_eq_vStep {α : Type} (var : DataArray α) (g : Grid α) (b : String) :
    to_s_w var g b = vStep g var b "s_w" GPos.outer := rfl

lemma hpairStep_noop {α : Type} (g : Grid α) (var : DataArray α) (b : String)
    (tgt1 : String) (pos1 : GPos) (tgt2 : String) (pos2 : GPos)
    (h1 : tgt1 ∈ var.dims) (h2 : tgt2 ∈ var.dims) :
    hpairStep g var b tgt1 pos1 tgt2 pos2 = ([], var) := by
  simp [hpairStep, h1, h2]

lemma vStep_noop {α : Type} (g : Grid α) (var : DataArray α) (b : String)
    (tgt : String) (pos : GPos) (h : tgt ∈ var.dims) :
    vStep g var b tgt pos = ([], var) := by
  simp [vStep, h]

lemma hpairStep_calls {α : Type} (g : Grid α) (var : DataArray α) (b : String)
    (tgt1 : String) (pos1 : GPos) (tgt2 : String) (pos2 : GPos) :
    ∀ c ∈ (hpairStep g var b tgt1 pos1 tgt2 pos2).1,
      c.axis = Axis.X ∨ c.axis = Axis.Y := by
  simp only [hpairStep]
  split <;> split <;> simp_all

lemma hpairStep_spec {α : Type} (g : Grid α) (var : DataArray α) (b : String)
    (tgt1 : String) (pos1 : GPos) (tgt2 : String) (pos2 : GPos)
    (hp1 : targetDim Axis.X pos1 = tgt1) (hp2 : targetDim Axis.Y pos2 = tgt2)
    (hX : ∃ d ∈ axisDims Axis.X, d ∈ var.dims)
    (hY : ∃ d ∈ axisDims Axis.Y, d ∈ var.dims) :
    tgt1 ∈ (hpairStep g var b tgt1 pos1 tgt2 pos2).2.dims ∧
    tgt2 ∈ (hpairStep g var b tgt1 pos1 tgt2 pos2).2.dims ∧
    (∀ d2, d2 ∉ axisDims Axis.X → d2 ∉ axisDims Axis.Y →
      (d2 ∈ (hpairStep g var b tgt1 pos1 tgt2 pos2).2.dims ↔ d2 ∈ var.dims)) := by
  have htgt1X : tgt1 ∈ axisDims Axis.X := hp1 ▸ targetDim_mem_axisDims Axis.X pos1
  have htgt2Y : tgt2 ∈ axisDims Axis.Y := hp2 ▸ targetDim_mem_axisDims Axis.Y pos2
  have htgt1nY : tgt1 ∉ axisDims Axis.Y :=
    axisDims_disjoint Axis.X Axis.Y (by decide) tgt1 htgt1X
  have htgt2nX : tgt2 ∉ axisDims Axis.X :=
    axisDims_disjoint Axis.Y Axis.X (by decide) tgt2 htgt2Y
  simp only [hpairStep]
  split
  case isTrue h1 =>
    have hv1 : tgt1 ∈ (interp g var Axis.X pos1 b).dims := by
      rw [← hp1]
      exact interp_dims_mem_target g var Axis.X pos1 b hX
    have hY1 : ∃ d ∈ axisDims Axis.Y, d ∈ (interp g var Axis.X pos1 b).dims := by
      obtain ⟨d, hd1, hd2⟩ := hY
      exact ⟨d, hd1, (interp_dims_mem_iff g var Axis.X pos1 b d
        (axisDims_disjoint Axis.Y Axis.X (by decide) d hd1)).2 hd2⟩
    split
    case isTrue h2 =>
      refine ⟨?_, ?_, ?_⟩
      · exact (interp_dims_mem_iff g _ Axis.Y pos2 b tgt1 htgt1nY).2 hv1
      · rw [← hp2]
        exact interp_dims_mem_target g _ Axis.Y pos2 b hY1
      · intro d2 hx2 hy2
        rw [interp_dims_mem_iff g _ Axis.Y pos2 b d2 hy2,
          interp_dims_mem_iff g var Axis.X pos1 b d2 hx2]
    case isFalse h2 =>
      refine ⟨hv1, not_not.1 h2, ?_⟩
      intro d2 hx2 _
      rw [interp_dims_mem_iff g var Axis.X pos1 b d2 hx2]
  case isFalse h1 =>
    have hv1 : tgt1 ∈ var.dims := not_not.1 h1
    split
    case isTrue h2 =>
      refine ⟨?_, ?_, ?_⟩
      · exact (interp_dims_mem_iff g var Axis.Y pos2 b tgt1 htgt1nY).2 hv1
      · rw [← hp2]
        exact interp_dims_mem_target g var Axis.Y pos2 b hY
      · intro d2 _ hy2
        rw [interp_dims_mem_iff g var Axis.Y pos2 b d2 hy2]
    case isFalse h2 =>
      exact ⟨hv1, not_not.1 h2, fun d2 _ _ => Iff.rfl⟩

lemma vStep_spec {α : Type} (g : Grid α) (var : DataArray α) (b : String)
    (tgt : String) (pos : GPos)
    (hp : targetDim Axis.Z pos = tgt)
    (hZ : ∃ d ∈ axisDims Axis.Z, d ∈ var.dims) :
    tgt ∈ (vStep g var b tgt pos).2.dims ∧
    (∀ d2, d2 ∉ axisDims Axis.Z →
      (d2 ∈ (vStep g var b tgt pos).2.dims ↔ d2 ∈ var.dims)) := by
  simp only [vStep]
  split
  case isTrue h =>
    refine ⟨?_, ?_⟩
    · rw [← hp]
      exact interp_dims_mem_target g var Axis.Z pos b hZ
    · intro d2 hz2
      rw [interp_dims_mem_iff g var Axis.Z pos b d2 hz2]
  case isFalse h =>
    exact ⟨not_not.1 h, fun d2 _ => Iff.rfl⟩

lemma vStep_calls {α : Type} (g : Grid α) (var : DataArray α) (b : String)
    (tgt : String) (pos : GPos) :
    ∀ c ∈ (vStep g var b tgt pos).1, c.axis = Axis.Z := by
  simp only [vStep]
  split <;> simp_all

lemma setName_self {α : Type} (v : DataArray α) :
    ({ v with name := v.name } : DataArray α) = v := by
  cases v
  rfl

lemma togridH_invalid {α : Type} (var : DataArray α) (g : Grid α) (h : String)
    (hh : h ∉ ["rho", "psi", "u", "v"]) :
    togridH var g (some h) = ([], Except.error (hcoordMsg h)) := by
  simp only [togridH]
  rw [if_neg hh]

lemma togridS_invalid {α : Type} (var : DataArray α) (g : Grid α) (s : String)
    (hs : s ∉ ["s_rho", "rho", "s_w", "w"]) :
    togridS var g (some s) = ([], Except.error (scoordMsg s)) := by
  simp only [togridS]
  rw [if_neg hs]

lemma togridH_ok {α : Type} (var : DataArray α) (g : Grid α)
    (hcoord : Option String)
    (hh : ∀ h2, hcoord = some h2 → h2 ∈ ["rho", "psi", "u", "v"]) :
    ∃ t1 v1, togridH var g hcoord = (t1, Except.ok v1) := by
  cases hcoord with
  | none => exact ⟨[], var, rfl⟩
  | some h =>
    have hmem := hh h rfl
    simp only [List.mem_cons, List.not_mem_nil, or_false] at hmem
    rcases hmem with rfl | rfl | rfl | rfl
    · exact ⟨(to_rho var g "extend").1, (to_rho var g "extend").2, rfl⟩
    · exact ⟨(to_psi var g "extend").1, (to_psi var g "extend").2, rfl⟩
    · exact ⟨(to_u var g "extend").1, (to_u var g "extend").2, rfl⟩
    · exact ⟨(to_v var g "extend").1, (to_v var g "extend").2, rfl⟩

lemma togridH_calls {α : Type} (var : DataArray α) (g : Grid α)
    (hcoord : Option String) :
    ∀ c ∈ (togridH var g hcoord).1, c.axis = Axis.X ∨ c.axis = Axis.Y := by
  cases hcoord with
  | none => simp [togridH]
  | some h =>
    simp only [togridH]
    split
    · split
      · rw [to_rho_eq_hpairStep]; exact hpairStep_calls _ _ _ _ _ _ _
      · split
        · rw [to_psi_eq_hpairStep]; exact hpairStep_calls _ _ _ _ _ _ _
        · split
          · rw [to_u_eq_hpairStep]; exact hpairStep_calls _ _ _ _ _ _ _
          · split
            · rw [to_v_eq_hpairStep]; exact hpairStep_calls _ _ _ _ _ _ _
            · simp
    · simp

/-- The `hcoord` block of `to_grid` with a valid (or absent) coordinate:
it succeeds, it preserves non-horizontal dimensions, and it is a no-op on
any field whose non-vertical dimensions agree with its own output. -/
lemma togridH_spec {α : Type} (var : DataArray α) (g : Grid α)
    (hcoord : Option String)
    (hh : ∀ h2, hcoord = some h2 → h2 ∈ ["rho", "psi", "u", "v"])
    (hXY : hcoord ≠ none → (∃ d ∈ axisDims Axis.X, d ∈ var.dims) ∧
      (∃ d ∈ axisDims Axis.Y, d ∈ var.dims)) :
    ∃ t1 v1, togridH var g hcoord = (t1, Except.ok v1) ∧
      (∀ d2, d2 ∉ axisDims Axis.X → d2 ∉ axisDims Axis.Y →
        (d2 ∈ v1.dims ↔ d2 ∈ var.dims)) ∧
      (∀ vv : DataArray α,
        (∀ d2, d2 ∉ axisDims Axis.Z → (d2 ∈ vv.dims ↔ d2 ∈ v1.dims)) →
        togridH vv g hcoord = ([], Except.ok vv)) := by
  cases hcoord with
  | none => exact ⟨[], var, rfl, fun d2 _ _ => Iff.rfl, fun vv _ => rfl⟩
  | some h =>
    have hmem := hh h rfl
    obtain ⟨hX, hY⟩ := hXY (by simp)
    simp only [List.mem_cons, List.not_mem_nil, or_false] at hmem
    rcases hmem with rfl | rfl | rfl | rfl
    · have hs := hpairStep_spec g var "extend" "xi_rho" GPos.center
        "eta_rho" GPos.center rfl rfl hX hY
      rw [← to_rho_eq_hpairStep] at hs
      refine ⟨(to_rho var g "extend").1, (to_rho var g "extend").2, rfl,
        hs.2.2, ?_⟩
      intro vv hvv
      have h1 : "xi_rho" ∈ vv.dims := (hvv "xi_rho" (by decide)).2 hs.1
      have h2 : "eta_rho" ∈ vv.dims := (hvv "eta_rho" (by decide)).2 hs.2.1
      have : to_rho vv g "extend" = ([], vv) := by
        rw [to_rho_eq_hpairStep]
        exact hpairStep_noop g vv "extend" _ _ _ _ h1 h2
      show ((to_rho vv g "extend").1, Except.ok (to_rho vv g "extend").2) = _
      rw [this]
    · have hs := hpairStep_spec g var "extend" "xi_u" GPos.inner
        "eta_v" GPos.inner rfl rfl hX hY
      rw [← to_psi_eq_hpairStep] at hs
      refine ⟨(to_psi var g "extend").1, (to_psi var g "extend").2, rfl,
        hs.2.2, ?_⟩
      intro vv hvv
      have h1 : "xi_u" ∈ vv.dims := (hvv "xi_u" (by decide)).2 hs.1
      have h2 : "eta_v" ∈ vv.dims := (hvv "eta_v" (by decide)).2 hs.2.1
      show togridH vv g (some "psi") = ([], Except.ok vv)
      have : to_psi vv g "extend" = ([], vv) := by
        rw [to_psi_eq_hpairStep]
        exact hpairStep_noop g vv "extend" _ _ _ _ h1 h2
      show ((to_psi vv g "extend").1, Except.ok (to_psi vv g "extend").2) = _
      rw [this]
    · have hs := hpairStep_spec g var "extend" "xi_u" GPos.inner
        "eta_rho" GPos.center rfl rfl hX hY
      rw [← to_u_eq_hpairStep] at hs
      refine ⟨(to_u var g "extend").1, (to_u var g "extend").2, rfl,
        hs.2.2, ?_⟩
      intro vv hvv
      have h1 : "xi_u" ∈ vv.dims := (hvv "xi_u" (by decide)).2 hs.1
      have h2 : "eta_rho" ∈ vv.dims := (hvv "eta_rho" (by decide)).2 hs.2.1
      have : to_u vv g "extend" = ([], vv) := by
        rw [to_u_eq_hpairStep]
        exact hpairStep_noop g vv "extend" _ _ _ _ h1 h2
      show ((to_u vv g "extend").1, Except.ok (to_u vv g "extend").2) = _
      rw [this]
    · have hs := hpairStep_spec g var "extend" "xi_rho" GPos.center
        "eta_v" GPos.inner rfl rfl hX hY
      rw [← to_v_eq_hpairStep] at hs
      refine ⟨(to_v var g "extend").1, (to_v var g "extend").2, rfl,
        hs.2.2, ?_⟩
      intro vv hvv
      have h1 : "xi_rho" ∈ vv.dims := (hvv "xi_rho" (by decide)).2 hs.1
      have h2 : "eta_v" ∈ vv.dims := (hvv "eta_v" (by decide)).2 hs.2.1
      have : to_v vv g "extend" = ([], vv) := by
        rw [to_v_eq_hpairStep]
        exact hpairStep_noop g vv "extend" _ _ _ _ h1 h2
      show ((to_v vv g "extend").1, Except.ok (to_v vv g "extend").2) = _
      rw [this]

/-- The `scoord` block of `to_grid` with a valid (or absent) coordinate:
it succeeds, it preserves non-vertical dimensions, and it is a no-op on any
field whose non-horizontal dimensions agree with its own output. -/
lemma togridS_spec {α : Type} (var : DataArray α) (g : Grid α)
    (scoord : Option String)
    (hs : ∀ s2, scoord = some s2 → s2 ∈ ["s_rho", "rho", "s_w", "w"])
    (hZ : scoord ≠ none → ∃ d ∈ axisDims Axis.Z, d ∈ var.dims) :
    ∃ t2 v2, togridS var g scoord = (t2, Except.ok v2) ∧
      (∀ d2, d2 ∉ axisDims Axis.Z → (d2 ∈ v2.dims ↔ d2 ∈ var.dims)) ∧
      (∀ vv : DataArray α,
        (∀ d2, d2 ∉ axisDims Axis.X → d2 ∉ axisDims Axis.Y →
          (d2 ∈ vv.dims ↔ d2 ∈ v2.dims)) →
        togridS vv g scoord = ([], Except.ok vv)) := by
  cases scoord with
  | none => exact ⟨[], var, rfl, fun d2 _ => Iff.rfl, fun vv _ => rfl⟩
  | some s =>
    have hmem := hs s rfl
    have hZ' := hZ (by simp)
    simp only [List.mem_cons, List.not_mem_nil, or_false] at hmem
    have hrho : s = "s_rho" ∨ s = "rho" ∨ s = "s_w" ∨ s = "w" := hmem
    rcases hrho with rfl | rfl | rfl | rfl
    · have hv := vStep_spec g var "extend" "s_rho" GPos.center rfl hZ'
      rw [← to_s_rho_eq_vStep] at hv
      refine ⟨(to_s_rho var g "extend").1, (to_s_rho var g "extend").2, rfl,
        hv.2, ?_⟩
      intro vv hvv
      have h1 : "s_rho" ∈ vv.dims :=
        (hvv "s_rho" (by decide) (by decide)).2 hv.1
      have : to_s_rho vv g "extend" = ([], vv) := by
        rw [to_s_rho_eq_vStep]
        exact vStep_noop g vv "extend" _ _ h1
      show ((to_s_rho vv g "extend").1, Except.ok (to_s_rho vv g "extend").2) = _
      rw [this]
    · have hv := vStep_spec g var "extend" "s_rho" GPos.center rfl hZ'
      rw [← to_s_rho_eq_vStep] at hv
      refine ⟨(to_s_rho var g "extend").1, (to_s_rho var g "extend").2, rfl,
        hv.2, ?_⟩
      intro vv hvv
      have h1 : "s_rho" ∈ vv.dims :=
        (hvv "s_rho" (by decide) (by decide)).2 hv.1
      have : to_s_rho vv g "extend" = ([], vv) := by
        rw [to_s_rho_eq_vStep]
        exact vStep_noop g vv "extend" _ _ h1
      show ((to_s_rho vv g "extend").1, Except.ok (to_s_rho vv g "extend").2) = _
      rw [this]
    · have hv := vStep_spec g var "extend" "s_w" GPos.outer rfl hZ'
      rw [← to_s_w_eq_vStep] at hv
      refine ⟨(to_s_w var g "extend").1, (to_s_w var g "extend").2, rfl,
        hv.2, ?_⟩
      intro vv hvv
      have h1 : "s_w" ∈ vv.dims :=
        (hvv "s_w" (by decide) (by decide)).2 hv.1
      have : to_s_w vv g "extend" = ([], vv) := by
        rw [to_s_w_eq_vStep]
        exact vStep_noop g vv "extend" _ _ h1
      show ((to_s_w vv g "extend").1, Except.ok (to_s_w vv g "extend").2) = _
      rw [this]
    · have hv := vStep_spec g var "extend" "s_w" GPos.outer rfl hZ'
      rw [← to_s_w_eq_vStep] at hv
      refine ⟨(to_s_w var g "extend").1, (to_s_w var g "extend").2, rfl,
        hv.2, ?_⟩
      intro vv hvv
      have h1 : "s_w" ∈ vv.dims :=
        (hvv "s_w" (by decide) (by decide)).2 hv.1
      have : to_s_w vv g "extend" = ([], vv) := by
        rw [to_s_w_eq_vStep]
        exact vStep_noop g vv "extend" _ _ h1
      show ((to_s_w vv g "extend").1, Except.ok (to_s_w vv g "extend").2) = _
      rw [this]

/-! ### Claim theorems for `to_grid` -/

/-- C4 counterexample: with the valid `hcoord` value `rho` on a field that
needs horizontal regridding and the invalid `scoord` value `z`, `to_grid`
raises the scoord assertion — but only after two horizontal `grid.interp`
calls (X to center, Y to center) have already been performed, contradicting
the claim that the failure occurs before any interpolation is attempted. -/
theorem to_grid_invalid_scoord_counterexample :
    (to_grid (⟨["s_w", "eta_v", "xi_u"], some "salt", [], ()⟩ : DataArray Unit)
      unitGrid (some "rho") (some "z")).2 = Except.error (scoordMsg "z") ∧
    (to_grid (⟨["s_w", "eta_v", "xi_u"], some "salt", [], ()⟩ : DataArray Unit)
      unitGrid (some "rho") (some "z")).1 =
      [⟨Axis.X, GPos.center, "extend"⟩, ⟨Axis.Y, GPos.center, "extend"⟩] ∧
    (to_grid (⟨["s_w", "eta_v", "xi_u"], some "salt", [], ()⟩ : DataArray Unit)
      unitGrid (some "rho") (some "z")).1 ≠ [] := by
  refine ⟨rfl, rfl, ?_⟩
  intro hcontra
  exact absurd (rfl.trans hcontra : ([⟨Axis.X, GPos.center, "extend"⟩,
    ⟨Axis.Y, GPos.center, "extend"⟩] : List Call) = []) (by simp)

/-- C4 amended: an invalid `hcoord` fails with the assertion message naming
the parameter and its accepted set before any `grid.interp` call; an
invalid `scoord` (with a valid or absent `hcoord`) fails with the
corresponding message before any *vertical* `grid.interp` call, though the
horizontal regridding entailed by a valid `hcoord` has already been
performed. -/
theorem to_grid_invalid_coord_error :
    (∀ (α : Type) (g : Grid α) (var : DataArray α) (h : String)
      (scoord : Option String),
      h ∉ ["rho", "psi", "u", "v"] →
      to_grid var g (some h) scoord = ([], Except.error (hcoordMsg h))) ∧
    (∀ (α : Type) (g : Grid α) (var : DataArray α) (hcoord : Option String)
      (s : String),
      (∀ h2, hcoord = some h2 → h2 ∈ ["rho", "psi", "u", "v"]) →
      s ∉ ["s_rho", "rho", "s_w", "w"] →
      (to_grid var g hcoord (some s)).2 = Except.error (scoordMsg s) ∧
      ∀ c ∈ (to_grid var g hcoord (some s)).1, c.axis ≠ Axis.Z) := by
  constructor
  · intro α g var h scoord hh
    simp only [to_grid, togridH_invalid var g h hh]
  · intro α g var hcoord s hh hs
    obtain ⟨t1, v1, hH⟩ := togridH_ok var g hcoord hh
    have heq : to_grid var g hcoord (some s) =
        (t1 ++ [], Except.error (scoordMsg s)) := by
      simp only [to_grid, hH, togridS_invalid v1 g s hs]
    rw [heq]
    refine ⟨rfl, ?_⟩
    intro c hc
    have hc1 : c ∈ t1 := by simpa using hc
    rcases togridH_calls var g hcoord c (hH ▸ hc1) with h1 | h1 <;>
      simp [h1]

/-- Witness for C4 (amended): an invalid `hcoord` at a concrete input fails
with the assertion message and an empty call trace, and an invalid `scoord`
at a concrete input fails with no vertical call in the trace. -/
theorem to_grid_invalid_coord_error_witness :
    to_grid (⟨["xi_u"], none, [], ()⟩ : DataArray Unit) unitGrid
      (some "bogus") none = ([], Except.error (hcoordMsg "bogus")) ∧
    (to_grid (⟨["xi_u"], none, [], ()⟩ : DataArray Unit) unitGrid
      none (some "z")).2 = Except.error (scoordMsg "z") := by
  constructor
  · exact to_grid_invalid_coord_error.1 Unit unitGrid _ "bogus" none (by decide)
  · exact (to_grid_invalid_coord_error.2 Unit unitGrid _ none "z"
      (by intro h2 e; cases e) (by decide)).1

/-- C5: `to_grid` is idempotent — on a field carrying the axes being moved,
applying `to_grid` with valid coordinates to its own output performs no
further `grid.interp` call and returns the output unchanged; and each
single-axis step (`to_rho`, `to_psi`, `to_u`, `to_v`, `to_s_rho`,
`to_s_w`) returns its input unchanged whenever the input already carries the
target dimension names. -/
theorem to_grid_idempotent :
    (∀ (α : Type) (g : Grid α) (var : DataArray α) (hcoord scoord : Option String),
      (∀ h2, hcoord = some h2 → h2 ∈ ["rho", "psi", "u", "v"]) →
      (∀ s2, scoord = some s2 → s2 ∈ ["s_rho", "rho", "s_w", "w"]) →
      (hcoord ≠ none → (∃ d ∈ axisDims Axis.X, d ∈ var.dims) ∧
        (∃ d ∈ axisDims Axis.Y, d ∈ var.dims)) →
      (scoord ≠ none → ∃ d ∈ axisDims Axis.Z, d ∈ var.dims) →
      ∀ t w, to_grid var g hcoord scoord = (t, Except.ok w) →
        to_grid w g hcoord scoord = ([], Except.ok w)) ∧
    (∀ (α : Type) (var : DataArray α) (g : Grid α) (b : String),
      ("xi_rho" ∈ var.dims → "eta_rho" ∈ var.dims → to_rho var g b = ([], var)) ∧
      ("xi_u" ∈ var.dims → "eta_v" ∈ var.dims → to_psi var g b = ([], var)) ∧
      ("xi_u" ∈ var.dims → "eta_rho" ∈ var.dims → to_u var g b = ([], var)) ∧
      ("xi_rho" ∈ var.dims → "eta_v" ∈ var.dims → to_v var g b = ([], var)) ∧
      ("s_rho" ∈ var.dims → to_s_rho var g b = ([], var)) ∧
      ("s_w" ∈ var.dims → to_s_w var g b = ([], var))) := by
  constructor
  · intro α g var hcoord scoord hh hsv hXY hZ t w heq
    obtain ⟨t1, v1, hH, hHpres, hHnoop⟩ := togridH_spec var g hcoord hh hXY
    have hZ1 : scoord ≠ none → ∃ d ∈ axisDims Axis.Z, d ∈ v1.dims := by
      intro hne
      obtain ⟨d, hd1, hd2⟩ := hZ hne
      refine ⟨d, hd1, (hHpres d ?_ ?_).2 hd2⟩
      · exact axisDims_disjoint Axis.Z Axis.X (by decide) d hd1
      · exact axisDims_disjoint Axis.Z Axis.Y (by decide) d hd1
    obtain ⟨t2, v2, hS, hSpres, hSnoop⟩ := togridS_spec v1 g scoord hsv hZ1
    have hcomp : to_grid var g hcoord scoord =
        (t1 ++ t2, Except.ok { v2 with name := var.name }) := by
      simp only [to_grid, hH, hS]
    rw [hcomp] at heq
    simp only [Prod.mk.injEq, Except.ok.injEq] at heq
    obtain ⟨-, hW⟩ := heq
    have hwdims : w.dims = v2.dims := by rw [← hW]
    have hHnoop2 : togridH w g hcoord = ([], Except.ok w) := by
      refine hHnoop w ?_
      intro d2 hd2
      rw [hwdims]
      exact hSpres d2 hd2
    have hSnoop2 : togridS w g scoord = ([], Except.ok w) := by
      refine hSnoop w ?_
      intro d2 _ _
      rw [hwdims]
    simp only [to_grid, hHnoop2, hSnoop2, List.nil_append, setName_self]
  · intro α var g b
    refine ⟨?_, ?_, ?_, ?_, ?_, ?_⟩
    · intro h1 h2
      rw [to_rho_eq_hpairStep]
      exact hpairStep_noop g var b _ _ _ _ h1 h2
    · intro h1 h2
      rw [to_psi_eq_hpairStep]
      exact hpairStep_noop g var b _ _ _ _ h1 h2
    · intro h1 h2
      rw [to_u_eq_hpairStep]
      exact hpairStep_noop g var b _ _ _ _ h1 h2
    · intro h1 h2
      rw [to_v_eq_hpairStep]
      exact hpairStep_noop g var b _ _ _ _ h1 h2
    · intro h1
      rw [to_s_rho_eq_vStep]
      exact vStep_noop g var b _ _ h1
    · intro h1
      rw [to_s_w_eq_vStep]
      exact vStep_noop g var b _ _ h1

/-- Witness for C5: a concrete u-grid field moved to (rho, s_rho); the
second application performs no call and returns the output unchanged. -/
theorem to_grid_idempotent_witness :
    to_grid (⟨["ocean_time", "s_rho", "eta_rho", "xi_rho"],
        some "u", [("units", "m/s")], ()⟩ : DataArray Unit) unitGrid
      (some "rho") (some "s_rho") =
      ([], Except.ok (⟨["ocean_time", "s_rho", "eta_rho", "xi_rho"],
        some "u", [("units", "m/s")], ()⟩ : DataArray Unit)) := by
  refine to_grid_idempotent.1 Unit unitGrid
    (⟨["ocean_time", "s_w", "eta_v", "xi_u"], some "u", [("units", "m/s")], ()⟩ :
      DataArray Unit)
    (some "rho") (some "s_rho")
    (by intro h2 e; cases e; decide)
    (by intro s2 e; cases e; decide)
    (by intro _; exact ⟨⟨"xi_u", by decide, by decide⟩, ⟨"eta_v", by decide, by decide⟩⟩)
    (by intro _; exact ⟨"s_w", by decide, by decide⟩)
    [⟨Axis.X, GPos.center, "extend"⟩, ⟨Axis.Y, GPos.center, "extend"⟩,
      ⟨Axis.Z, GPos.center, "extend"⟩]
    (⟨["ocean_time", "s_rho", "eta_rho", "xi_rho"],
      some "u", [("units", "m/s")], ()⟩ : DataArray Unit)
    rfl

/-- C7: whenever `to_grid` returns a field, that field carries the same
name as the input field, for every grid, field and coordinate arguments,
regardless of which interpolation steps were performed (the name is saved
on entry and restored on the result). -/
theorem to_grid_preserves_name :
    ∀ (α : Type) (g : Grid α) (var : DataArray α)
      (hcoord scoord : Option String) (t : List Call) (w : DataArray α),
      to_grid var g hcoord scoord = (t, Except.ok w) → w.name = var.name := by
  intro α g var hcoord scoord t w heq
  rcases hH : togridH var g hcoord with ⟨t1, e1⟩
  cases e1 with
  | error e =>
    simp only [to_grid, hH, Prod.mk.injEq] at heq
    exact absurd heq.2 (by simp)
  | ok v1 =>
    rcases hS : togridS v1 g scoord with ⟨t2, e2⟩
    cases e2 with
    | error e =>
      simp only [to_grid, hH, hS, Prod.mk.injEq] at heq
      exact absurd heq.2 (by simp)
    | ok v2 =>
      simp only [to_grid, hH, hS, Prod.mk.injEq, Except.ok.injEq] at heq
      rw [← heq.2]

/-- Witness for C7: a rho-grid field moved to (psi, s_w) keeps its name. -/
theorem to_grid_preserves_name_witness :
    (⟨["s_w", "eta_v", "xi_u"], some "salt", [], ()⟩ : DataArray Unit).name =
      (⟨["s_rho", "eta_rho", "xi_rho"], some "salt", [], ()⟩ : DataArray Unit).name := by
  exact to_grid_preserves_name Unit unitGrid
    (⟨["s_rho", "eta_rho", "xi_rho"], some "salt", [], ()⟩ : DataArray Unit)
    (some "psi") (some "w")
    [⟨Axis.X, GPos.inner, "extend"⟩, ⟨Axis.Y, GPos.inner, "extend"⟩,
      ⟨Axis.Z, GPos.outer, "extend"⟩]
    (⟨["s_w", "eta_v", "xi_u"], some "salt", [], ()⟩ : DataArray Unit)
    rfl

/-! ### Attribute dictionary lemmas -/

lemma lookup_append_of_eq_none {β : Type} (l1 l2 : List (String × β))
    (k : String) (h : l1.lookup k = none) :
    (l1 ++ l2).lookup k = l2.lookup k := by
  induction l1 with
  | nil => simp
  | cons p t ih =>
    rcases p with ⟨k1, v1⟩
    cases hbe : (k == k1) with
    | true => simp [List.lookup, hbe] at h
    | false =>
      simp only [List.cons_append]
      simp only [List.lookup, hbe] at h ⊢
      exact ih h

lemma lookup_append_left {β : Type} (l1 l2 : List (String × β))
    (k : String) (v : β) (h : l1.lookup k = some v) :
    (l1 ++ l2).lookup k = some v := by
  induction l1 with
  | nil => simp at h
  | cons p t ih =>
    rcases p with ⟨k1, v1⟩
    cases hbe : (k == k1) with
    | true =>
      simp only [List.cons_append]
      simp only [List.lookup, hbe] at h ⊢
      exact h
    | false =>
      simp only [List.cons_append]
      simp only [List.lookup, hbe] at h ⊢
      exact ih h

lemma attrsSetDefault_lookup_self (a : List (String × String)) (k v : String) :
    (attrsSetDefault a k v).lookup k = some ((a.lookup k).getD v) := by
  simp only [attrsSetDefault]
  rcases h : a.lookup k with - | x
  · rw [if_neg (by simp [h])]
    rw [lookup_append_of_eq_none _ _ _ h]
    simp [List.lookup]
  · rw [if_pos (by simp [h]), h]
    rfl

lemma attrsSetDefault_lookup_other (a : List (String × String))
    (k v k2 : String) (hne : k2 ≠ k) :
    (attrsSetDefault a k v).lookup k2 = a.lookup k2 := by
  simp only [attrsSetDefault]
  split
  · rfl
  · rcases h : a.lookup k2 with - | x
    · rw [lookup_append_of_eq_none _ _ _ h]
      simp only [List.lookup]
      rw [show (k2 == k) = false from beq_eq_false_iff_ne.mpr hne]
    · exact lookup_append_left _ _ _ _ h

lemma fillDefaultAttrs_lookup_long_name (a : List (String × String)) :
    (fillDefaultAttrs a).lookup "long_name" =
      some ((a.lookup "long_name").getD "var") := by
  simp only [fillDefaultAttrs]
  rw [attrsSetDefault_lookup_other _ _ _ _ (by decide),
    attrsSetDefault_lookup_self,
    attrsSetDefault_lookup_other _ _ _ _ (by decide)]

lemma fillDefaultAttrs_lookup_units (a : List (String × String)) :
    (fillDefaultAttrs a).lookup "units" =
      some ((a.lookup "units").getD "units") := by
  simp only [fillDefaultAttrs]
  rw [attrsSetDefault_lookup_self,
    attrsSetDefault_lookup_other _ _ _ _ (by decide),
    attrsSetDefault_lookup_other _ _ _ _ (by decide)]

lemma attrsSetDefault_mem (a : List (String × String)) (k v : String)
    (kv : String × String) (h : kv ∈ a) : kv ∈ attrsSetDefault a k v := by
  simp only [attrsSetDefault]
  split
  · exact h
  · exact List.mem_append_left _ h

lemma fillDefaultAttrs_mem (a : List (String × String))
    (kv : String × String) (h : kv ∈ a) : kv ∈ fillDefaultAttrs a := by
  simp only [fillDefaultAttrs]
  exact attrsSetDefault_mem _ _ _ _ (attrsSetDefault_mem _ _ _ _
    (attrsSetDefault_mem _ _ _ _ h))

/-! ### No-call traces and input mutation -/

lemma hpairStep_nil_trace {α : Type} (g : Grid α) (var : DataArray α)
    (b : String) (tgt1 : String) (pos1 : GPos) (tgt2 : String) (pos2 : GPos)
    (ht : (hpairStep g var b tgt1 pos1 tgt2 pos2).1 = []) :
    (hpairStep g var b tgt1 pos1 tgt2 pos2).2 = var := by
  simp only [hpairStep] at ht ⊢
  by_cases h1 : tgt1 ∉ var.dims
  · rw [if_pos h1] at ht
    split at ht <;> simp at ht
  · rw [if_neg h1] at ht ⊢
    by_cases h2 : tgt2 ∉ (([], var) : List Call × DataArray α).2.dims
    · rw [if_pos h2] at ht
      simp at ht
    · rw [if_neg h2]

lemma vStep_nil_trace {α : Type} (g : Grid α) (var : DataArray α)
    (b : String) (tgt : String) (pos : GPos)
    (ht : (vStep g var b tgt pos).1 = []) :
    (vStep g var b tgt pos).2 = var := by
  simp only [vStep] at ht ⊢
  by_cases h1 : tgt ∉ var.dims
  · rw [if_pos h1] at ht
    simp at ht
  · rw [if_neg h1]

lemma togridH_nil_trace {α : Type} (var : DataArray α) (g : Grid α)
    (hcoord : Option String) (v1 : DataArray α)
    (hH : togridH var g hcoord = ([], Except.ok v1)) : v1 = var := by
  cases hcoord with
  | none =>
    have : (([], Except.ok var) : List Call × Except String (DataArray α)) =
      ([], Except.ok v1) := hH
    simp only [Prod.mk.injEq, Except.ok.injEq] at this
    exact this.2.symm
  | some h =>
    simp only [togridH] at hH
    split at hH
    · split at hH
      · simp only [Prod.mk.injEq, Except.ok.injEq] at hH
        rw [← hH.2, to_rho_eq_hpairStep]
        exact hpairStep_nil_trace g var "extend" _ _ _ _
          (by rw [← to_rho_eq_hpairStep]; exact hH.1)
      · split at hH
        · simp only [Prod.mk.injEq, Except.ok.injEq] at hH
          rw [← hH.2, to_psi_eq_hpairStep]
          exact hpairStep_nil_trace g var "extend" _ _ _ _
            (by rw [← to_psi_eq_hpairStep]; exact hH.1)
        · split at hH
          · simp only [Prod.mk.injEq, Except.ok.injEq] at hH
            rw [← hH.2, to_u_eq_hpairStep]
            exact hpairStep_nil_trace g var "extend" _ _ _ _
              (by rw [← to_u_eq_hpairStep]; exact hH.1)
          · split at hH
            · simp only [Prod.mk.injEq, Except.ok.injEq] at hH
              rw [← hH.2, to_v_eq_hpairStep]
              exact hpairStep_nil_trace g var "extend" _ _ _ _
                (by rw [← to_v_eq_hpairStep]; exact hH.1)
            · simp only [Prod.mk.injEq, Except.ok.injEq] at hH
              exact hH.2.symm
    · simp at hH

lemma togridS_nil_trace {α : Type} (var : DataArray α) (g : Grid α)
    (scoord : Option String) (v1 : DataArray α)
    (hS : togridS var g scoord = ([], Except.ok v1)) : v1 = var := by
  cases scoord with
  | none =>
    have : (([], Except.ok var) : List Call × Except String (DataArray α)) =
      ([], Except.ok v1) := hS
    simp only [Prod.mk.injEq, Except.ok.injEq] at this
    exact this.2.symm
  | some s =>
    simp only [togridS] at hS
    split at hS
    · split at hS
      · simp only [Prod.mk.injEq, Except.ok.injEq] at hS
        rw [← hS.2, to_s_rho_eq_vStep]
        exact vStep_nil_trace g var "extend" _ _
          (by rw [← to_s_rho_eq_vStep]; exact hS.1)
      · split at hS
        · simp only [Prod.mk.injEq, Except.ok.injEq] at hS
          rw [← hS.2, to_s_w_eq_vStep]
          exact vStep_nil_trace g var "extend" _ _
            (by rw [← to_s_w_eq_vStep]; exact hS.1)
        · simp only [Prod.mk.injEq, Except.ok.injEq] at hS
          exact hS.2.symm
    · simp at hS

/-- C6 counterexample: `ddz` with no attrs override on an input lacking the
`name`/`long_name`/`units` attributes mutates the input in place — after
the call the input's attribute dictionary has gained the three default
entries, so it is not identical to what it was before the call. -/
theorem ddz_mutates_input_counterexample :
    (ddz (⟨["s_rho"], some "salt", [], ()⟩ : DataArray Unit) unitGrid none
      none none "extend" FVal.nan).1 ≠
      (⟨["s_rho"], some "salt", [], ()⟩ : DataArray Unit) := by
  decide

/-- C6 amended: `ddz`/`ddxi`/`ddeta` with a caller-supplied attrs dictionary
leave their input untouched; with `attrs=None` they mutate the input only by
inserting the missing default `name`/`long_name`/`units` entries into its
attribute dictionary, leaving dims, name, data and all existing attribute
entries unchanged; and `to_grid` never mutates its input — in particular
when it performs no `grid.interp` call (the only case in which the returned
object aliases the input), the returned value equals the input value. -/
theorem core_ops_input_mutation :
    (∀ (α : Type) (g : Grid α) (var : DataArray α)
      (a : List (String × String)) (hcoord scoord : Option String)
      (sb : String) (sf : FVal),
      (ddz var g (some a) hcoord scoord sb sf).1 = var) ∧
    (∀ (α : Type) (g : Grid α) (var : DataArray α)
      (hcoord scoord : Option String) (sb : String) (sf : FVal),
      (ddz var g none hcoord scoord sb sf).1 =
        { var with attrs := fillDefaultAttrs var.attrs } ∧
      (ddz var g none hcoord scoord sb sf).1.dims = var.dims ∧
      (ddz var g none hcoord scoord sb sf).1.name = var.name ∧
      (ddz var g none hcoord scoord sb sf).1.data = var.data ∧
      ∀ kv ∈ var.attrs, kv ∈ (ddz var g none hcoord scoord sb sf).1.attrs) ∧
    (∀ (α : Type) (hg : HGrad α) (g : Grid α) (var : DataArray α)
      (a : List (String × String)) (hcoord scoord : Option String)
      (hb : String) (hf : FVal) (sb : String) (sf : FVal)
      (z : Option (DataArray α)),
      (ddxi hg var g (some a) hcoord scoord hb hf sb sf z).1 = var ∧
      (ddeta hg var g (some a) hcoord scoord hb hf sb sf z).1 = var) ∧
    (∀ (α : Type) (hg : HGrad α) (g : Grid α) (var : DataArray α)
      (hcoord scoord : Option String) (hb : String) (hf : FVal)
      (sb : String) (sf : FVal) (z : Option (DataArray α)),
      (ddxi hg var g none hcoord scoord hb hf sb sf z).1 =
        { var with attrs := fillDefaultAttrs var.attrs } ∧
      (ddeta hg var g none hcoord scoord hb hf sb sf z).1 =
        { var with attrs := fillDefaultAttrs var.attrs }) ∧
    (∀ (α : Type) (g : Grid α) (var : DataArray α)
      (hcoord scoord : Option String) (w : DataArray α),
      to_grid var g hcoord scoord = ([], Except.ok w) → w = var) := by
  refine ⟨?_, ?_, ?_, ?_, ?_⟩
  · intro α g var a hcoord scoord sb sf
    rfl
  · intro α g var hcoord scoord sb sf
    have key : (ddz var g none hcoord scoord sb sf).1 =
        { var with attrs := fillDefaultAttrs var.attrs } := by
      obtain ⟨dims, nm, at0, dt⟩ := var
      rcases nm with - | n <;> rfl
    refine ⟨key, by rw [key], by rw [key], by rw [key], ?_⟩
    intro kv hkv
    rw [key]
    exact fillDefaultAttrs_mem _ _ hkv
  · intro α hg g var a hcoord scoord hb hf sb sf z
    exact ⟨rfl, rfl⟩
  · intro α hg g var hcoord scoord hb hf sb sf z
    constructor
    · obtain ⟨dims, nm, at0, dt⟩ := var
      rcases nm with - | n <;> rfl
    · obtain ⟨dims, nm, at0, dt⟩ := var
      rcases nm with - | n <;> rfl
  · intro α g var hcoord scoord w heq
    rcases hH : togridH var g hcoord with ⟨t1, e1⟩
    cases e1 with
    | error e =>
      simp only [to_grid, hH, Prod.mk.injEq] at heq
      exact absurd heq.2 (by simp)
    | ok v1 =>
      rcases hS : togridS v1 g scoord with ⟨t2, e2⟩
      cases e2 with
      | error e =>
        simp only [to_grid, hH, hS, Prod.mk.injEq] at heq
        exact absurd heq.2 (by simp)
      | ok v2 =>
        simp only [to_grid, hH, hS, Prod.mk.injEq, Except.ok.injEq] at heq
        obtain ⟨hT, hW⟩ := heq
        obtain ⟨ht1, ht2⟩ := List.append_eq_nil.mp hT
        rw [ht1] at hH
        rw [ht2] at hS
        have hv1 : v1 = var := togridH_nil_trace var g hcoord v1 hH
        have hv2 : v2 = v1 := togridS_nil_trace v1 g scoord v2 hS
        rw [← hW, hv2, hv1, setName_self]

/-- Witness for C6 (amended): at a concrete input, `ddz` with no attrs
override leaves the input's state equal to the input with only the default
attribute entries appended. -/
theorem core_ops_input_mutation_witness :
    (ddz (⟨["s_rho"], some "salt", [("units", "psu")], ()⟩ : DataArray Unit)
      unitGrid none none none "extend" FVal.nan).1 =
      { (⟨["s_rho"], some "salt", [("units", "psu")], ()⟩ : DataArray Unit) with
        attrs := fillDefaultAttrs [("units", "psu")] } :=
  (core_ops_input_mutation.2.1 Unit unitGrid
    (⟨["s_rho"], some "salt", [("units", "psu")], ()⟩ : DataArray Unit)
    none none "extend" FVal.nan).1

/-- C8 counterexample: on an input with no DataArray name and no attributes,
`ddz` with no attrs override does not fall back to the name `"var"` — the
`'var'` default is written into the input's attribute dictionary, but the
output name is built from the DataArray's own `.name`, so the concatenation
`'d' + var.name + 'dz'` raises a TypeError and no field with attributes
`{name: "dvardz", ...}` is returned. -/
theorem ddz_attrs_name_fallback_counterexample :
    (ddz (⟨["s_rho"], none, [], ()⟩ : DataArray Unit) unitGrid none none none
      "extend" FVal.nan).2 = Except.error nameTypeErrorMsg := by
  rfl

/-- C8 amended: when the input carries a DataArray name `n` and no attrs
override is supplied, the returned field's attributes are
`{name: "d"+n+"dz", long_name: "vertical derivative of "+input.long_name,
units: "1/m * "+input.units}`, with `long_name`/`units` falling back to the
literal strings `"var"`/`"units"` when the input lacks them; a
caller-supplied attrs dictionary replaces these defaults entirely; and when
the input lacks a name (and no attrs override is supplied), `ddz` raises a
TypeError instead of falling back to `"var"` for the name. -/
theorem ddz_attrs_amended :
    (∀ (α : Type) (g : Grid α) (var : DataArray α) (n : String)
      (hcoord scoord : Option String) (sb : String) (sf : FVal),
      var.name = some n →
      ∀ w, (ddz var g none hcoord scoord sb sf).2 = Except.ok w →
        w.attrs = [("name", "d" ++ n ++ "dz"),
          ("long_name", "vertical derivative of " ++
            ((var.attrs.lookup "long_name").getD "var")),
          ("units", "1/m * " ++ ((var.attrs.lookup "units").getD "units"))]) ∧
    (∀ (α : Type) (g : Grid α) (var : DataArray α)
      (a : List (String × String)) (hcoord scoord : Option String)
      (sb : String) (sf : FVal) (w : DataArray α),
      (ddz var g (some a) hcoord scoord sb sf).2 = Except.ok w →
      w.attrs = a) ∧
    (∀ (α : Type) (g : Grid α) (var : DataArray α)
      (hcoord scoord : Option String) (sb : String) (sf : FVal),
      var.name = none →
      (ddz var g none hcoord scoord sb sf).2 =
        Except.error nameTypeErrorMsg) := by
  refine ⟨?_, ?_, ?_⟩
  · intro α g var n hcoord scoord sb sf hn w heq
    obtain ⟨dims, nm, at0, dt⟩ := var
    simp only at hn
    subst hn
    simp only [ddz] at heq
    rcases hg : (to_grid (g.derivative ⟨dims, some n, fillDefaultAttrs at0, dt⟩
        Axis.Z sb sf) g hcoord scoord).2 with e | v2
    · rw [hg] at heq
      simp [Except.map] at heq
    · rw [hg] at heq
      simp only [Except.map, Except.ok.injEq] at heq
      rw [← heq]
      simp only [fillDefaultAttrs_lookup_long_name,
        fillDefaultAttrs_lookup_units, Option.getD_some]
  · intro α g var a hcoord scoord sb sf w heq
    simp only [ddz] at heq
    rcases hg : (to_grid (g.derivative var Axis.Z sb sf) g hcoord scoord).2
      with e | v2
    · rw [hg] at heq
      simp [Except.map] at heq
    · rw [hg] at heq
      simp only [Except.map, Except.ok.injEq] at heq
      rw [← heq]
  · intro α g var hcoord scoord sb sf hn
    obtain ⟨dims, nm, at0, dt⟩ := var
    simp only at hn
    subst hn
    rfl

/-- Witness for C8 (amended): the default attributes actually produced for a
named input with a `units` attribute but no `long_name`. -/
theorem ddz_attrs_amended_witness :
    (⟨["ocean_time", "s_rho", "eta_rho", "xi_u"], some "u",
      [("name", "d" ++ "u" ++ "dz"),
        ("long_name", "vertical derivative of var"),
        ("units", "1/m * m/s")], ()⟩ : DataArray Unit).attrs =
      [("name", "d" ++ "u" ++ "dz"),
        ("long_name", "vertical derivative of " ++
          (([("units", "m/s")] : List (String × String)).lookup "long_name").getD "var"),
        ("units", "1/m * " ++
          (([("units", "m/s")] : List (String × String)).lookup "units").getD "units")] := by
  exact ddz_attrs_amended.1 Unit unitGrid
    (⟨["ocean_time", "s_rho", "eta_rho", "xi_u"], some "u",
      [("units", "m/s")], ()⟩ : DataArray Unit)
    "u" none none "extend" FVal.nan rfl
    (⟨["ocean_time", "s_rho", "eta_rho", "xi_u"], some "u",
      [("name", "d" ++ "u" ++ "dz"),
        ("long_name", "vertical derivative of var"),
        ("units", "1/m * m/s")], ()⟩ : DataArray Unit)
    rfl

/-! ### Grid identification -/

/-- The eta-dimension names appearing in `id_grid`. -/
def etaNames : List String :=
  ["eta_rho", "eta_u", "eta_v", "eta_psi", "eta_vert"]

/-- The xi-dimension names appearing in `id_grid`. -/
def xiNames : List String :=
  ["xi_rho", "xi_u", "xi_v", "xi_psi", "xi_vert"]

/-- The (eta, xi, position) combinations that `id_grid` recognizes, in the
source's branch order. -/
def knownGridPairs : List (String × String × String) :=
  [("eta_rho", "xi_rho", "rho"), ("eta_rho", "xi_u", "u"),
   ("eta_u", "xi_u", "u"), ("eta_v", "xi_rho", "v"), ("eta_v", "xi_v", "v"),
   ("eta_v", "xi_u", "psi"), ("eta_psi", "xi_psi", "psi"),
   ("eta_vert", "xi_vert", "vert")]

/-- C9: on a well-formed field — duplicate-free dimension names carrying
exactly one known eta-dimension and one known xi-dimension forming a
recognized combination, as every field produced by the core operations
does — `id_grid` returns exactly the matching named grid position, one of
rho/u/v/psi/vert; and a duplicate-free field whose dimension names contain
no recognized combination is given no position (`id_grid` returns the
no-match `none`). -/
theorem id_grid_exact_total :
    (∀ (α : Type) (da : DataArray α) (e x gname : String),
      da.dims.Nodup →
      (e, x, gname) ∈ knownGridPairs →
      e ∈ da.dims → x ∈ da.dims →
      (∀ d ∈ etaNames, d ∈ da.dims → d = e) →
      (∀ d ∈ xiNames, d ∈ da.dims → d = x) →
      id_grid da = some gname ∧ gname ∈ ["rho", "u", "v", "psi", "vert"]) ∧
    (∀ (α : Type) (da : DataArray α),
      da.dims.Nodup →
      (∀ p ∈ knownGridPairs, ¬(p.1 ∈ da.dims ∧ p.2.1 ∈ da.dims)) →
      id_grid da = none) := by
  constructor
  · intro α da e x gname hnd hp he hx honlye honlyx
    have hc : ∀ d : String, d ∈ etaNames ∨ d ∈ xiNames →
        da.dims.count d = if d = e ∨ d = x then 1 else 0 := by
      intro d hd
      by_cases hde : d = e ∨ d = x
      · rw [if_pos hde]
        rcases hde with rfl | rfl
        · exact List.count_eq_one_of_mem hnd he
        · exact List.count_eq_one_of_mem hnd hx
      · rw [if_neg hde]
        push_neg at hde
        apply List.count_eq_zero.mpr
        intro hmem
        rcases hd with hd | hd
        · exact hde.1 (honlye d hd hmem)
        · exact hde.2 (honlyx d hd hmem)
    fin_cases hp <;>
    · refine ⟨?_, by decide⟩
      simp only [id_grid, hc "eta_rho" (by decide), hc "xi_rho" (by decide),
        hc "eta_u" (by decide), hc "xi_u" (by decide), hc "eta_v" (by decide),
        hc "xi_v" (by decide), hc "eta_psi" (by decide),
        hc "xi_psi" (by decide), hc "eta_vert" (by decide),
        hc "xi_vert" (by decide)]
      decide
  · intro α da hnd hno
    have key : ∀ a b : String, (∃ g2, (a, b, g2) ∈ knownGridPairs) →
        ¬(da.dims.count a + da.dims.count b = 2) := by
      rintro a b ⟨g2, hpair⟩ hsum
      have ha := List.nodup_iff_count_le_one.mp hnd a
      have hb := List.nodup_iff_count_le_one.mp hnd b
      have hma : a ∈ da.dims := List.count_pos_iff.mp (by omega)
      have hmb : b ∈ da.dims := List.count_pos_iff.mp (by omega)
      exact hno (a, b, g2) hpair ⟨hma, hmb⟩
    have n1 := key "eta_rho" "xi_rho" ⟨"rho", by decide⟩
    have n2 : ¬(da.dims.count "eta_rho" + da.dims.count "xi_u" = 2 ∨
        da.dims.count "eta_u" + da.dims.count "xi_u" = 2) := by
      rintro (h | h)
      · exact key "eta_rho" "xi_u" ⟨"u", by decide⟩ h
      · exact key "eta_u" "xi_u" ⟨"u", by decide⟩ h
    have n3 : ¬(da.dims.count "eta_v" + da.dims.count "xi_rho" = 2 ∨
        da.dims.count "eta_v" + da.dims.count "xi_v" = 2) := by
      rintro (h | h)
      · exact key "eta_v" "xi_rho" ⟨"v", by decide⟩ h
      · exact key "eta_v" "xi_v" ⟨"v", by decide⟩ h
    have n4 : ¬(da.dims.count "eta_v" + da.dims.count "xi_u" = 2 ∨
        da.dims.count "eta_psi" + da.dims.count "xi_psi" = 2) := by
      rintro (h | h)
      · exact key "eta_v" "xi_u" ⟨"psi", by decide⟩ h
      · exact key "eta_psi" "xi_psi" ⟨"psi", by decide⟩ h
    have n5 := key "eta_vert" "xi_vert" ⟨"vert", by decide⟩
    simp only [id_grid]
    rw [if_neg n1, if_neg n2, if_neg n3, if_neg n4, if_neg n5]

/-- Witness for C9: a concrete rho-grid field is identified as `rho`, and a
field with no recognized combination gets no position. -/
theorem id_grid_exact_total_witness :
    id_grid (⟨["ocean_time", "s_rho", "eta_rho", "xi_rho"], some "salt", [], ()⟩ :
      DataArray Unit) = some "rho" ∧
    id_grid (⟨["ocean_time", "s_rho"], some "zeta", [], ()⟩ :
      DataArray Unit) = none := by
  constructor
  · exact (id_grid_exact_total.1 Unit
      (⟨["ocean_time", "s_rho", "eta_rho", "xi_rho"], some "salt", [], ()⟩ :
        DataArray Unit)
      "eta_rho" "xi_rho" "rho" (by decide) (by decide) (by decide) (by decide)
      (by decide) (by decide)).1
  · exact id_grid_exact_total.2 Unit
      (⟨["ocean_time", "s_rho"], some "zeta", [], ()⟩ : DataArray Unit)
      (by decide) (by decide)
